import Mathlib

/- Shallow embedding of src/agent.py: a bilateral negotiation between a
customer and a wedding planner.  Python floats (budgets, timelines,
utilities) are idealised as real numbers; `math.exp` and `math.log` become
`Real.exp` and `Real.log`.  The stateful `NegotiationSimulation` object is
modelled by explicit state passing: `run_negotiation` takes the simulation
record and returns the result together with the updated record. -/

inductive Role where
  | customer
  | wedding_planner
deriving DecidableEq

inductive ServiceLevel where
  | Premium
  | Standard
  | Basic
deriving DecidableEq

/-- The per-agent preference dictionary of `NegotiationAgent.__init__`. -/
structure Preferences where
  min_budget : ℝ
  max_budget : ℝ
  optimal_budget : ℝ
  optimal_services : ServiceLevel
  preferred_timeline : ℝ
  max_timeline : ℝ
  min_timeline : ℝ
  optimal_timeline : ℝ

/-- An offer dictionary `{budget, services, timeline}`. -/
structure Offer where
  budget : ℝ
  services : ServiceLevel
  timeline : ℝ

structure NegotiationAgent where
  role : Role
  preferences : Preferences

/-- `self.budget_sensitivity = 5000` (same constant for both roles). -/
def budget_sensitivity : ℝ := 5000

structure UtilityWeights where
  budget : ℝ
  services : ℝ
  timeline : ℝ

/-- `self.utility_weights` from `NegotiationAgent.__init__`. -/
def utility_weights : Role → UtilityWeights
  | .customer => ⟨0.5, 0.3, 0.2⟩
  | .wedding_planner => ⟨0.6, 0.3, 0.1⟩

/-- `NegotiationAgent.calculate_budget_utility`. -/
noncomputable def calculate_budget_utility (a : NegotiationAgent)
    (negotiated_budget : ℝ) : ℝ :=
  match a.role with
  | .customer =>
      1 / (1 + Real.exp ((negotiated_budget - a.preferences.min_budget) /
        budget_sensitivity))
  | .wedding_planner =>
      Real.log (negotiated_budget / a.preferences.min_budget)

/-- `NegotiationAgent.calculate_services_utility`. -/
def calculate_services_utility (a : NegotiationAgent)
    (service_level : ServiceLevel) : ℝ :=
  match a.role, service_level with
  | .customer, .Premium => 1.0
  | .customer, .Standard => 0.7
  | .customer, .Basic => 0.4
  | .wedding_planner, .Premium => 1.0
  | .wedding_planner, .Standard => 0.8
  | .wedding_planner, .Basic => 0.5

/-- `NegotiationAgent.calculate_timeline_utility`. -/
noncomputable def calculate_timeline_utility (a : NegotiationAgent)
    (negotiated_timeline : ℝ) : ℝ :=
  match a.role with
  | .customer =>
      1 - |(negotiated_timeline - a.preferences.preferred_timeline) /
        a.preferences.max_timeline|
  | .wedding_planner =>
      1 - negotiated_timeline / a.preferences.max_timeline

/-- `NegotiationAgent.calculate_total_utility`. -/
noncomputable def calculate_total_utility (a : NegotiationAgent)
    (offer : Offer) : ℝ :=
  (utility_weights a.role).budget * calculate_budget_utility a offer.budget +
  (utility_weights a.role).services * calculate_services_utility a offer.services +
  (utility_weights a.role).timeline * calculate_timeline_utility a offer.timeline

/-- `NegotiationAgent.generate_offer`. -/
noncomputable def generate_offer (a : NegotiationAgent)
    (previous_offer : Option Offer) : Offer :=
  match previous_offer with
  | none =>
      ⟨a.preferences.optimal_budget, a.preferences.optimal_services,
       a.preferences.optimal_timeline⟩
  | some prev =>
      match a.role with
      | .customer =>
          ⟨min (prev.budget * 1.05) a.preferences.max_budget,
           if prev.services = .Basic then .Standard else prev.services,
           prev.timeline⟩
      | .wedding_planner =>
          ⟨prev.budget, prev.services,
           max (prev.timeline * 0.9) a.preferences.min_timeline⟩

/-- `NegotiationAgent.evaluate_offer`:
`utility >= (0.8 if self.role == 'customer' else 0.6)`. -/
noncomputable def evaluate_offer (a : NegotiationAgent) (offer : Offer) : Prop :=
  calculate_total_utility a offer ≥
    (match a.role with | .customer => 0.8 | .wedding_planner => 0.6)

/-- One entry of `negotiation_history` (`negotiation_round_info`). -/
structure RoundInfo where
  round : ℕ
  offering_agent : Role
  offer : Offer
  accepted : Prop

/-- The mutable state of a `NegotiationSimulation` object together with the
two agents it was constructed from. -/
structure NegotiationSimulation where
  customer : NegotiationAgent
  wedding_planner : NegotiationAgent
  max_rounds : ℕ
  current_round : ℕ
  negotiation_history : List RoundInfo

/-- `NegotiationSimulation.__init__`. -/
def NegotiationSimulation.init (customer wedding_planner : NegotiationAgent) :
    NegotiationSimulation :=
  ⟨customer, wedding_planner, 10, 0, []⟩

noncomputable instance evaluate_offer.dec (a : NegotiationAgent) (offer : Offer) :
    Decidable (evaluate_offer a offer) :=
  Classical.propDecidable _

/-- The `while self.current_round < self.max_rounds` loop of
`run_negotiation`, with `current_offer`, `current_agent` and
`responding_agent` as loop-carried values. -/
noncomputable def runLoop (sim : NegotiationSimulation) (current_offer : Offer)
    (current_agent responding_agent : NegotiationAgent) :
    Option Offer × NegotiationSimulation :=
  if _h : sim.current_round < sim.max_rounds then
    if evaluate_offer responding_agent current_offer then
      (some current_offer,
       { sim with
          current_round := sim.current_round + 1,
          negotiation_history := sim.negotiation_history ++
            [⟨sim.current_round + 1, current_agent.role, current_offer,
              evaluate_offer responding_agent current_offer⟩] })
    else
      runLoop
        { sim with
            current_round := sim.current_round + 1,
            negotiation_history := sim.negotiation_history ++
              [⟨sim.current_round + 1, current_agent.role, current_offer,
                evaluate_offer responding_agent current_offer⟩] }
        (generate_offer current_agent (some current_offer))
        responding_agent current_agent
  else
    (none, sim)
termination_by sim.max_rounds - sim.current_round
decreasing_by simp_wf; omega

/-- `NegotiationSimulation.run_negotiation`.  The planner's opening offer is
computed but only printed by the Python code, never used by the protocol. -/
noncomputable def run_negotiation (sim : NegotiationSimulation) :
    Option Offer × NegotiationSimulation :=
  let customer_offer := generate_offer sim.customer none
  let _planner_offer := generate_offer sim.wedding_planner none
  runLoop sim customer_offer sim.wedding_planner sim.customer

/-- Service desirability rank: Premium > Standard > Basic. -/
def serviceRank : ServiceLevel → ℕ
  | .Premium => 2
  | .Standard => 1
  | .Basic => 0

/-- The agent recorded as `offering_agent` in round `n+1` of a run seeded as
in `run_negotiation`: the wedding planner in round 1, then alternating. -/
def offAgentAt (c wp : NegotiationAgent) (n : ℕ) : NegotiationAgent :=
  if n % 2 = 0 then wp else c

/-- The agent that evaluates the offer of round `n+1` (the loop's
`responding_agent`): the customer in round 1, then alternating. -/
def evalAgentAt (c wp : NegotiationAgent) (n : ℕ) : NegotiationAgent :=
  if n % 2 = 0 then c else wp

/-- The offer evaluated in round `n+1`: the customer's opening offer for
round 1, then the counter-offer produced at the end of each round. -/
noncomputable def offerAt (c wp : NegotiationAgent) : ℕ → Offer
  | 0 => generate_offer c none
  | n + 1 => generate_offer (offAgentAt c wp n) (some (offerAt c wp n))

/-- The agent that actually produced the offer evaluated in round `n+1`:
the customer produced the opening offer, and the counter-offer evaluated in
round `n+2` was produced by round `n+1`'s `current_agent`. -/
def producerAt (c wp : NegotiationAgent) : ℕ → NegotiationAgent
  | 0 => c
  | n + 1 => offAgentAt c wp n

/-- The history record appended in round `n+1` of a run seeded as in
`run_negotiation`. -/
noncomputable def roundRecord (c wp : NegotiationAgent) (n : ℕ) : RoundInfo :=
  ⟨n + 1, (offAgentAt c wp n).role, offerAt c wp n,
   evaluate_offer (evalAgentAt c wp n) (offerAt c wp n)⟩

/-- A customer whose optimum already sits at its own `max_budget`, so its
counter-offer to `stubbornOffer` is `stubbornOffer` again. -/
noncomputable def stubbornCustomer : NegotiationAgent :=
  ⟨.customer, ⟨0, 5000, 5000, .Premium, 6, 12, 3, 6⟩⟩

/-- A planner whose `min_timeline` equals the customer's opening timeline,
so its counter-offer to `stubbornOffer` is `stubbornOffer` again. -/
noncomputable def stubbornPlanner : NegotiationAgent :=
  ⟨.wedding_planner, ⟨5000, 50000, 40000, .Premium, 4, 12, 6, 4⟩⟩

/-- The offer `{budget: 5000, services: Premium, timeline: 6}`, a fixed
point of both stubborn agents' concession strategies that neither accepts. -/
noncomputable def stubbornOffer : Offer := ⟨5000, .Premium, 6⟩

/-- The example customer preferences from `main()`. -/
noncomputable def mainCustomerPrefs : Preferences :=
  ⟨10000, 50000, 15000, .Standard, 6, 12, 3, 6⟩

/-- The example planner preferences from `main()`. -/
noncomputable def mainPlannerPrefs : Preferences :=
  ⟨10000, 50000, 40000, .Premium, 4, 12, 3, 4⟩

/-- Preferences as prescribed by spec Scenario B: `min_budget` equals
`optimal_budget`, Premium optimum, and the preferred timeline equals the
optimal timeline. -/
noncomputable def scenarioBPrefs : Preferences :=
  ⟨10000, 50000, 10000, .Premium, 6, 12, 3, 6⟩

/-- A sample previous offer used to exercise the concession step. -/
noncomputable def sampleOffer : Offer := ⟨20000, .Basic, 6⟩

lemma offAgentAt_succ (c wp : NegotiationAgent) (n : ℕ) :
    offAgentAt c wp (n + 1) = evalAgentAt c wp n := by
  rcases Nat.mod_two_eq_zero_or_one n with h | h <;>
    simp [offAgentAt, evalAgentAt, Nat.add_mod, h]

lemma evalAgentAt_succ (c wp : NegotiationAgent) (n : ℕ) :
    evalAgentAt c wp (n + 1) = offAgentAt c wp n := by
  rcases Nat.mod_two_eq_zero_or_one n with h | h <;>
    simp [offAgentAt, evalAgentAt, Nat.add_mod, h]

lemma producerAt_eq_evalAgentAt (c wp : NegotiationAgent) (n : ℕ) :
    producerAt c wp n = evalAgentAt c wp n := by
  cases n with
  | zero => simp [producerAt, evalAgentAt]
  | succ m => rw [producerAt, evalAgentAt_succ]

/-- If both agents reject the offer `o` and both counter `o` with `o`
itself, the loop never accepts. -/
lemma runLoop_none_of_reject :
    ∀ (fuel : ℕ) (sim : NegotiationSimulation) (o : Offer)
      (ca ra : NegotiationAgent),
      sim.max_rounds - sim.current_round ≤ fuel →
      generate_offer ca (some o) = o → generate_offer ra (some o) = o →
      ¬ evaluate_offer ca o → ¬ evaluate_offer ra o →
      (runLoop sim o ca ra).1 = none := by
  intro fuel
  induction fuel with
  | zero =>
    intro sim o ca ra hfuel _ _ _ _
    rw [runLoop, dif_neg (by omega)]
  | succ f ih =>
    intro sim o ca ra hfuel hca hra hnca hnra
    by_cases hlt : sim.current_round < sim.max_rounds
    · rw [runLoop, dif_pos hlt, if_neg hnra, hca]
      exact ih _ o ra ca (by simp; omega) hra hca hnra hnca
    · rw [runLoop, dif_neg hlt]

lemma range_succ_map_add {α : Type} (f : ℕ → α) (n k : ℕ) :
    (List.range (k + 1)).map (fun j => f (n + j)) =
      f n :: (List.range k).map (fun j => f (n + 1 + j)) := by
  rw [List.range_succ_eq_map, List.map_cons, List.map_map]
  congr 1
  apply List.map_congr_left
  intro j _
  simp only [Function.comp_apply]
  congr 1
  omega

/-- Characterisation of the loop when entered in lock-step with the derived
round sequences: the history grows by the records `roundRecord c wp n`,
`roundRecord c wp (n+1)`, ..., the round counter advances by the number of
records, it never passes `max_rounds`, at least one round runs whenever the
guard holds, and a `none` result happens exactly at exhaustion. -/
lemma runLoop_records (c wp : NegotiationAgent) :
    ∀ (fuel : ℕ) (sim : NegotiationSimulation),
      sim.max_rounds - sim.current_round ≤ fuel →
      sim.customer = c → sim.wedding_planner = wp →
      ∃ k,
        (runLoop sim (offerAt c wp sim.current_round)
            (offAgentAt c wp sim.current_round)
            (evalAgentAt c wp sim.current_round)).2.negotiation_history
            = sim.negotiation_history ++
              (List.range k).map
                (fun j => roundRecord c wp (sim.current_round + j)) ∧
        (runLoop sim (offerAt c wp sim.current_round)
            (offAgentAt c wp sim.current_round)
            (evalAgentAt c wp sim.current_round)).2.current_round
            = sim.current_round + k ∧
        sim.current_round + k ≤ max sim.current_round sim.max_rounds ∧
        (sim.current_round < sim.max_rounds → 1 ≤ k) ∧
        ((runLoop sim (offerAt c wp sim.current_round)
            (offAgentAt c wp sim.current_round)
            (evalAgentAt c wp sim.current_round)).1 = none →
          sim.current_round + k = max sim.current_round sim.max_rounds) ∧
        (runLoop sim (offerAt c wp sim.current_round)
            (offAgentAt c wp sim.current_round)
            (evalAgentAt c wp sim.current_round)).2.max_rounds
            = sim.max_rounds := by
  intro fuel
  induction fuel with
  | zero =>
    intro sim hfuel hc hwp
    have hge : ¬ sim.current_round < sim.max_rounds := by omega
    have hr : runLoop sim (offerAt c wp sim.current_round)
        (offAgentAt c wp sim.current_round)
        (evalAgentAt c wp sim.current_round) = (none, sim) := by
      rw [runLoop, dif_neg hge]
    refine ⟨0, ?_, ?_, ?_, ?_, ?_, ?_⟩ <;> simp [hr] <;> omega
  | succ f ih =>
    intro sim hfuel hc hwp
    by_cases hlt : sim.current_round < sim.max_rounds
    · by_cases hacc :
        evaluate_offer (evalAgentAt c wp sim.current_round)
          (offerAt c wp sim.current_round)
      · -- accepted: exactly one more round runs
        have hr : runLoop sim (offerAt c wp sim.current_round)
            (offAgentAt c wp sim.current_round)
            (evalAgentAt c wp sim.current_round)
            = (some (offerAt c wp sim.current_round),
               { sim with
                  current_round := sim.current_round + 1,
                  negotiation_history := sim.negotiation_history ++
                    [roundRecord c wp sim.current_round] }) := by
          rw [runLoop, dif_pos hlt, if_pos hacc]
          rfl
        refine ⟨1, ?_, ?_, ?_, ?_, ?_, ?_⟩
        · rw [hr]; simp [List.range_succ]
        · rw [hr]
        · omega
        · intro _; omega
        · rw [hr]; simp
        · rw [hr]
      · -- rejected: one round runs, then the loop continues in lock-step
        have hstep :
            runLoop sim (offerAt c wp sim.current_round)
              (offAgentAt c wp sim.current_round)
              (evalAgentAt c wp sim.current_round)
            = runLoop
                { sim with
                    current_round := sim.current_round + 1,
                    negotiation_history := sim.negotiation_history ++
                      [roundRecord c wp sim.current_round] }
                (offerAt c wp (sim.current_round + 1))
                (offAgentAt c wp (sim.current_round + 1))
                (evalAgentAt c wp (sim.current_round + 1)) := by
          rw [runLoop, dif_pos hlt, if_neg hacc, offAgentAt_succ,
            evalAgentAt_succ]
          rfl
        obtain ⟨k, h1, h2, h3, h4, h5, h6⟩ :=
          ih { sim with
                current_round := sim.current_round + 1,
                negotiation_history := sim.negotiation_history ++
                  [roundRecord c wp sim.current_round] }
            (by simp; omega) hc hwp
        dsimp only at h1 h2 h3 h4 h5 h6
        refine ⟨k + 1, ?_, ?_, ?_, ?_, ?_, ?_⟩
        · rw [hstep, h1, range_succ_map_add]
          simp [List.append_assoc]
        · rw [hstep, h2]; omega
        · omega
        · intro _; omega
        · rw [hstep]
          intro hnone
          have h5' := h5 hnone
          omega
        · rw [hstep, h6]
    · have hr : runLoop sim (offerAt c wp sim.current_round)
          (offAgentAt c wp sim.current_round)
          (evalAgentAt c wp sim.current_round) = (none, sim) := by
        rw [runLoop, dif_neg hlt]
      refine ⟨0, ?_, ?_, ?_, ?_, ?_, ?_⟩ <;> simp [hr] <;> omega

/-- The loop is insensitive to everything about the two agents except their
roles, their round-by-round evaluations, and their counter-offers. -/
lemma runLoop_congr :
    ∀ (fuel : ℕ) (sim sim' : NegotiationSimulation) (o : Offer)
      (ca ra ca' ra' : NegotiationAgent),
      sim.max_rounds - sim.current_round ≤ fuel →
      sim.current_round = sim'.current_round →
      sim.max_rounds = sim'.max_rounds →
      sim.negotiation_history = sim'.negotiation_history →
      ca.role = ca'.role → ra.role = ra'.role →
      (∀ x, evaluate_offer ca x = evaluate_offer ca' x) →
      (∀ x, evaluate_offer ra x = evaluate_offer ra' x) →
      (∀ x, generate_offer ca (some x) = generate_offer ca' (some x)) →
      (∀ x, generate_offer ra (some x) = generate_offer ra' (some x)) →
      (runLoop sim o ca ra).1 = (runLoop sim' o ca' ra').1 ∧
      (runLoop sim o ca ra).2.negotiation_history
        = (runLoop sim' o ca' ra').2.negotiation_history ∧
      (runLoop sim o ca ra).2.current_round
        = (runLoop sim' o ca' ra').2.current_round := by
  intro fuel
  induction fuel with
  | zero =>
    intro sim sim' o ca ra ca' ra' hfuel hcr hmax hh _ _ _ _ _ _
    have hge : ¬ sim.current_round < sim.max_rounds := by omega
    have hge' : ¬ sim'.current_round < sim'.max_rounds := by omega
    rw [runLoop, dif_neg hge, runLoop, dif_neg hge']
    exact ⟨rfl, hh, hcr⟩
  | succ f ih =>
    intro sim sim' o ca ra ca' ra' hfuel hcr hmax hh hcrole hrrole hcev hrev
      hcgen hrgen
    by_cases hlt : sim.current_round < sim.max_rounds
    · have hlt' : sim'.current_round < sim'.max_rounds := by omega
      by_cases hacc : evaluate_offer ra o
      · have hacc' : evaluate_offer ra' o := (hrev o) ▸ hacc
        rw [runLoop, dif_pos hlt, if_pos hacc, runLoop, dif_pos hlt',
          if_pos hacc']
        refine ⟨rfl, ?_, ?_⟩ <;> dsimp only
        · rw [hh, hcr, hcrole, hrev o]
        · rw [hcr]
      · have hacc' : ¬ evaluate_offer ra' o := (hrev o) ▸ hacc
        have e : runLoop sim o ca ra
            = runLoop
                { sim with
                    current_round := sim.current_round + 1,
                    negotiation_history := sim.negotiation_history ++
                      [⟨sim.current_round + 1, ca.role, o, evaluate_offer ra o⟩] }
                (generate_offer ca (some o)) ra ca := by
          rw [runLoop, dif_pos hlt, if_neg hacc]
        have e' : runLoop sim' o ca' ra'
            = runLoop
                { sim' with
                    current_round := sim'.current_round + 1,
                    negotiation_history := sim'.negotiation_history ++
                      [⟨sim'.current_round + 1, ca'.role, o, evaluate_offer ra' o⟩] }
                (generate_offer ca' (some o)) ra' ca' := by
          rw [runLoop, dif_pos hlt', if_neg hacc']
        rw [e, e', hcgen o]
        exact ih _ _ _ ra ca ra' ca'
          (by dsimp only; omega)
          (by dsimp only; omega)
          (by dsimp only; omega)
          (by dsimp only; rw [hh, hcr, hcrole, hrev o])
          hrrole hcrole hrev hcev hrgen hcgen
    · have hlt' : ¬ sim'.current_round < sim'.max_rounds := by omega
      rw [runLoop, dif_neg hlt, runLoop, dif_neg hlt']
      exact ⟨rfl, hh, hcr⟩

lemma run_negotiation_eq (sim : NegotiationSimulation) :
    run_negotiation sim
      = runLoop sim (generate_offer sim.customer none) sim.wedding_planner
          sim.customer := rfl

lemma roundRecord_zero (c wp : NegotiationAgent) :
    roundRecord c wp 0
      = ⟨1, wp.role, generate_offer c none,
         evaluate_offer c (generate_offer c none)⟩ := rfl

/-- The full history of a fresh run is exactly `roundRecord c wp 0`,
`roundRecord c wp 1`, ..., one record per executed round. -/
lemma run_negotiation_records (c wp : NegotiationAgent) :
    ∃ k,
      (run_negotiation (NegotiationSimulation.init c wp)).2.negotiation_history
        = (List.range k).map (fun j => roundRecord c wp j) ∧
      (run_negotiation (NegotiationSimulation.init c wp)).2.current_round = k ∧
      1 ≤ k ∧ k ≤ 10 ∧
      ((run_negotiation (NegotiationSimulation.init c wp)).1 = none → k = 10) ∧
      (run_negotiation (NegotiationSimulation.init c wp)).2.max_rounds = 10 := by
  obtain ⟨k, h1, h2, h3, h4, h5, h6⟩ :=
    runLoop_records c wp 10 (NegotiationSimulation.init c wp)
      (by simp [NegotiationSimulation.init]) rfl rfl
  simp only [NegotiationSimulation.init, Nat.zero_add, List.nil_append,
    Nat.zero_lt_succ, Nat.zero_le, Nat.max_eq_right] at h1 h2 h3 h4 h5 h6
  refine ⟨k, h1, h2, h4 (by norm_num), h3, ?_, h6⟩
  intro hnone
  exact h5 hnone

lemma run_negotiation_first_record (c wp : NegotiationAgent) :
    (run_negotiation
        (NegotiationSimulation.init c wp)).2.negotiation_history[0]?
      = some (roundRecord c wp 0) := by
  obtain ⟨k, h1, _, hk, _, _, _⟩ := run_negotiation_records c wp
  rw [h1]
  have h0 : 0 < k := hk
  simp [List.getElem?_map, List.getElem?_range, h0]

lemma stubbornCustomer_opening :
    generate_offer stubbornCustomer none = stubbornOffer := rfl

lemma stubbornCustomer_fix :
    generate_offer stubbornCustomer (some stubbornOffer) = stubbornOffer := by
  simp only [generate_offer, stubbornCustomer, stubbornOffer]
  norm_num
  rintro ⟨⟩

lemma stubbornPlanner_fix :
    generate_offer stubbornPlanner (some stubbornOffer) = stubbornOffer := by
  simp only [generate_offer, stubbornPlanner, stubbornOffer]
  norm_num

lemma stubbornCustomer_rejects :
    ¬ evaluate_offer stubbornCustomer stubbornOffer := by
  have he : (2 : ℝ) ≤ Real.exp 1 := by nlinarith [Real.add_one_le_exp (1 : ℝ)]
  have hinv : (1 + Real.exp 1)⁻¹ ≤ 3⁻¹ := by
    apply inv_anti₀ (by norm_num)
    linarith
  simp only [evaluate_offer, calculate_total_utility, calculate_budget_utility,
    calculate_services_utility, calculate_timeline_utility, utility_weights,
    budget_sensitivity, stubbornCustomer, stubbornOffer]
  norm_num
  linarith [hinv]

lemma stubbornPlanner_rejects :
    ¬ evaluate_offer stubbornPlanner stubbornOffer := by
  simp only [evaluate_offer, calculate_total_utility, calculate_budget_utility,
    calculate_services_utility, calculate_timeline_utility, utility_weights,
    budget_sensitivity, stubbornPlanner, stubbornOffer]
  norm_num [Real.log_one]

/-- With the stubborn pair, the negotiation runs to exhaustion. -/
lemma stubborn_run_none :
    (run_negotiation
      (NegotiationSimulation.init stubbornCustomer stubbornPlanner)).1
      = none := by
  rw [run_negotiation_eq]
  have hc : (NegotiationSimulation.init stubbornCustomer
      stubbornPlanner).customer = stubbornCustomer := rfl
  have hwp : (NegotiationSimulation.init stubbornCustomer
      stubbornPlanner).wedding_planner = stubbornPlanner := rfl
  rw [hc, hwp, stubbornCustomer_opening]
  exact runLoop_none_of_reject 10 _ stubbornOffer _ _
    (by simp [NegotiationSimulation.init]) stubbornPlanner_fix
    stubbornCustomer_fix stubbornPlanner_rejects stubbornCustomer_rejects

/-- C3: `evaluate_offer` accepts exactly when the role's weighted utility
sum (weights 0.5/0.3/0.2 for the customer, 0.6/0.3/0.1 for the planner)
reaches the role's threshold (0.8 for the customer, 0.6 for the planner). -/
theorem evaluate_offer_iff_threshold (p : Preferences) (o : Offer) :
    (evaluate_offer ⟨.customer, p⟩ o ↔
      0.5 * calculate_budget_utility ⟨.customer, p⟩ o.budget +
      0.3 * calculate_services_utility ⟨.customer, p⟩ o.services +
      0.2 * calculate_timeline_utility ⟨.customer, p⟩ o.timeline ≥ 0.8) ∧
    (evaluate_offer ⟨.wedding_planner, p⟩ o ↔
      0.6 * calculate_budget_utility ⟨.wedding_planner, p⟩ o.budget +
      0.3 * calculate_services_utility ⟨.wedding_planner, p⟩ o.services +
      0.1 * calculate_timeline_utility ⟨.wedding_planner, p⟩ o.timeline ≥ 0.6) := by
  constructor <;>
    simp [evaluate_offer, calculate_total_utility, utility_weights]

/-- C5: `generate_offer` returns the agent's optimum when there is no
previous offer; on a previous offer the customer raises the budget by 5%
capped at `max_budget`, upgrades Basic to Standard and keeps the timeline,
while the planner keeps budget and services and cuts the timeline by 10%
floored at `min_timeline`. -/
theorem generate_offer_spec (p : Preferences) (r : Role) (prev : Offer) :
    generate_offer ⟨r, p⟩ none
      = ⟨p.optimal_budget, p.optimal_services, p.optimal_timeline⟩ ∧
    generate_offer ⟨.customer, p⟩ (some prev)
      = ⟨min (prev.budget * 1.05) p.max_budget,
         if prev.services = .Basic then .Standard else prev.services,
         prev.timeline⟩ ∧
    generate_offer ⟨.wedding_planner, p⟩ (some prev)
      = ⟨prev.budget, prev.services,
         max (prev.timeline * 0.9) p.min_timeline⟩ :=
  ⟨rfl, rfl, rfl⟩

/-- C6: the customer's budget utility is the logistic `1/(1+exp((b-min)/5000))`,
strictly decreasing in the budget, and equal to 0.5 exactly at `min_budget`. -/
theorem customer_budget_utility_spec (p : Preferences) (b : ℝ) :
    calculate_budget_utility ⟨.customer, p⟩ b
      = 1 / (1 + Real.exp ((b - p.min_budget) / 5000)) ∧
    (∀ b1 b2 : ℝ, b1 < b2 →
      calculate_budget_utility ⟨.customer, p⟩ b2
        < calculate_budget_utility ⟨.customer, p⟩ b1) ∧
    (calculate_budget_utility ⟨.customer, p⟩ b = 0.5 ↔ b = p.min_budget) := by
  refine ⟨rfl, ?_, ?_⟩
  · intro b1 b2 hlt
    simp only [calculate_budget_utility, budget_sensitivity]
    have ht : (b1 - p.min_budget) / 5000 < (b2 - p.min_budget) / 5000 := by
      linarith
    have hexp := Real.exp_lt_exp.mpr ht
    have h1 : (0:ℝ) < 1 + Real.exp ((b1 - p.min_budget) / 5000) := by positivity
    exact one_div_lt_one_div_of_lt h1 (by linarith)
  · simp only [calculate_budget_utility, budget_sensitivity]
    constructor
    · intro h
      have hpos : (0:ℝ) < 1 + Real.exp ((b - p.min_budget) / 5000) := by
        positivity
      have hx : 1 + Real.exp ((b - p.min_budget) / 5000) = 2 := by
        field_simp at h
        linarith
      have hexp1 : Real.exp ((b - p.min_budget) / 5000) = 1 := by linarith
      have h0 := (Real.exp_eq_one_iff _).mp hexp1
      rcases div_eq_zero_iff.mp h0 with h' | h'
      · linarith
      · norm_num at h'
    · intro h
      rw [h]
      norm_num [Real.exp_zero]

/-- C6 witness: with the `main()` customer preferences the utility is 0.5 at
`min_budget = 10000` and strictly smaller at the higher budget 11000. -/
theorem customer_budget_utility_spec_witness :
    calculate_budget_utility ⟨.customer, mainCustomerPrefs⟩ 10000 = 0.5 ∧
    calculate_budget_utility ⟨.customer, mainCustomerPrefs⟩ 11000
      < calculate_budget_utility ⟨.customer, mainCustomerPrefs⟩ 10000 :=
  ⟨(customer_budget_utility_spec mainCustomerPrefs 10000).2.2.mpr rfl,
   (customer_budget_utility_spec mainCustomerPrefs 0).2.1 10000 11000
     (by norm_num)⟩

/-- C7: for a positive `min_budget` the planner's budget utility is
`log (b / min_budget)`: strictly increasing on positive budgets, zero
exactly at `min_budget`, and a (well-defined) negative value on
`0 < b < min_budget`. -/
theorem planner_budget_utility_spec (p : Preferences) (b : ℝ)
    (hm : 0 < p.min_budget) :
    calculate_budget_utility ⟨.wedding_planner, p⟩ b
      = Real.log (b / p.min_budget) ∧
    (∀ b1 b2 : ℝ, 0 < b1 → b1 < b2 →
      calculate_budget_utility ⟨.wedding_planner, p⟩ b1
        < calculate_budget_utility ⟨.wedding_planner, p⟩ b2) ∧
    (0 < b →
      (calculate_budget_utility ⟨.wedding_planner, p⟩ b = 0
        ↔ b = p.min_budget)) ∧
    (0 < b → b < p.min_budget →
      calculate_budget_utility ⟨.wedding_planner, p⟩ b < 0) := by
  refine ⟨rfl, ?_, ?_, ?_⟩
  · intro b1 b2 h1 h2
    simp only [calculate_budget_utility]
    exact Real.log_lt_log (by positivity) (div_lt_div_of_pos_right h2 hm)
  · intro hb
    simp only [calculate_budget_utility]
    rw [Real.log_eq_zero]
    constructor
    · rintro (h | h | h)
      · rcases div_eq_zero_iff.mp h with h' | h' <;> linarith
      · exact (div_eq_one_iff_eq (ne_of_gt hm)).mp h
      · have hpos : 0 < b / p.min_budget := div_pos hb hm
        linarith
    · intro h
      rw [h, div_self (ne_of_gt hm)]
      tauto
  · intro hb hlt
    simp only [calculate_budget_utility]
    exact Real.log_neg (div_pos hb hm) ((div_lt_one hm).mpr hlt)

/-- C7 witness: with the `main()` planner preferences the utility is 0 at
`min_budget = 10000` and negative at the smaller budget 5000. -/
theorem planner_budget_utility_spec_witness :
    calculate_budget_utility ⟨.wedding_planner, mainPlannerPrefs⟩ 10000 = 0 ∧
    calculate_budget_utility ⟨.wedding_planner, mainPlannerPrefs⟩ 5000 < 0 :=
  ⟨((planner_budget_utility_spec mainPlannerPrefs 10000
      (by norm_num [mainPlannerPrefs])).2.2.1 (by norm_num)).mpr rfl,
   (planner_budget_utility_spec mainPlannerPrefs 5000
      (by norm_num [mainPlannerPrefs])).2.2.2 (by norm_num)
     (by norm_num [mainPlannerPrefs])⟩

/-- C8: one concession step is monotone: the customer's counter-offer never
lowers the budget (staying within `max_budget`) or the service rank, and
the planner's counter-offer never raises the timeline (staying above
`min_timeline`). -/
theorem concession_monotone (p : Preferences) (prev : Offer)
    (hb0 : 0 ≤ prev.budget) (hbmax : prev.budget ≤ p.max_budget)
    (ht0 : 0 ≤ p.min_timeline) (htmin : p.min_timeline ≤ prev.timeline) :
    prev.budget ≤ (generate_offer ⟨.customer, p⟩ (some prev)).budget ∧
    (generate_offer ⟨.customer, p⟩ (some prev)).budget ≤ p.max_budget ∧
    serviceRank prev.services
      ≤ serviceRank (generate_offer ⟨.customer, p⟩ (some prev)).services ∧
    (generate_offer ⟨.wedding_planner, p⟩ (some prev)).timeline
      ≤ prev.timeline ∧
    p.min_timeline
      ≤ (generate_offer ⟨.wedding_planner, p⟩ (some prev)).timeline := by
  refine ⟨?_, ?_, ?_, ?_, ?_⟩
  · simp only [generate_offer]
    exact le_min (by nlinarith) hbmax
  · simp only [generate_offer]
    exact min_le_right _ _
  · simp only [generate_offer]
    cases prev.services <;> simp [serviceRank]
  · simp only [generate_offer]
    exact max_le (by nlinarith) htmin
  · simp only [generate_offer]
    exact le_max_right _ _

/-- C8 witness: the concession step is monotone on a concrete offer within
the `main()` customer's bounds. -/
theorem concession_monotone_witness :
    sampleOffer.budget
      ≤ (generate_offer ⟨.customer, mainCustomerPrefs⟩
          (some sampleOffer)).budget ∧
    (generate_offer ⟨.customer, mainCustomerPrefs⟩
        (some sampleOffer)).budget ≤ mainCustomerPrefs.max_budget ∧
    serviceRank sampleOffer.services
      ≤ serviceRank (generate_offer ⟨.customer, mainCustomerPrefs⟩
          (some sampleOffer)).services ∧
    (generate_offer ⟨.wedding_planner, mainCustomerPrefs⟩
        (some sampleOffer)).timeline ≤ sampleOffer.timeline ∧
    mainCustomerPrefs.min_timeline
      ≤ (generate_offer ⟨.wedding_planner, mainCustomerPrefs⟩
          (some sampleOffer)).timeline :=
  concession_monotone mainCustomerPrefs sampleOffer
    (by norm_num [sampleOffer]) (by norm_num [sampleOffer, mainCustomerPrefs])
    (by norm_num [mainCustomerPrefs])
    (by norm_num [sampleOffer, mainCustomerPrefs])

/-- C4: a fresh run executes at most 10 evaluation rounds, the history holds
one record per executed round, and a no-agreement result happens exactly at
`current_round = max_rounds = 10` with a 10-record history. -/
theorem run_negotiation_terminates (c wp : NegotiationAgent) :
    (run_negotiation (NegotiationSimulation.init c wp)).2.current_round
      ≤ 10 ∧
    (run_negotiation
        (NegotiationSimulation.init c wp)).2.negotiation_history.length
      = (run_negotiation (NegotiationSimulation.init c wp)).2.current_round ∧
    ((run_negotiation (NegotiationSimulation.init c wp)).1 = none →
      (run_negotiation (NegotiationSimulation.init c wp)).2.current_round
        = 10 ∧
      (run_negotiation
          (NegotiationSimulation.init c wp)).2.negotiation_history.length
        = 10) := by
  obtain ⟨k, h1, h2, hk1, hk10, hnone, _⟩ := run_negotiation_records c wp
  refine ⟨?_, ?_, ?_⟩
  · rw [h2]; exact hk10
  · rw [h1, h2]; simp
  · intro hn
    have hk := hnone hn
    constructor
    · rw [h2, hk]
    · rw [h1, hk]; simp

/-- C4 witness: the stubborn pair reaches no agreement, so its run stops at
round 10 with a 10-record history. -/
theorem run_negotiation_terminates_witness :
    (run_negotiation
        (NegotiationSimulation.init stubbornCustomer
          stubbornPlanner)).2.current_round = 10 ∧
    (run_negotiation
        (NegotiationSimulation.init stubbornCustomer
          stubbornPlanner)).2.negotiation_history.length = 10 :=
  (run_negotiation_terminates stubbornCustomer stubbornPlanner).2.2
    stubborn_run_none

/-- C1: round `i+1`'s history record carries the offer `offerAt c wp i`, is
attributed to the alternating `offAgentAt` role (planner for even `i`,
customer for odd `i`), and its accept flag is the evaluation by
`producerAt c wp i` — the very agent that most recently produced the offer
(the customer itself at `i = 0`), which coincides with the loop's
responding agent. -/
theorem run_negotiation_round_attribution (c wp : NegotiationAgent) (i : ℕ)
    (hc : c.role = .customer) (hwp : wp.role = .wedding_planner)
    (hi : i < (run_negotiation
        (NegotiationSimulation.init c wp)).2.negotiation_history.length) :
    (run_negotiation
        (NegotiationSimulation.init c wp)).2.negotiation_history[i]?
      = some ⟨i + 1, (offAgentAt c wp i).role, offerAt c wp i,
              evaluate_offer (producerAt c wp i) (offerAt c wp i)⟩ ∧
    producerAt c wp i = evalAgentAt c wp i ∧
    (offAgentAt c wp i).role
      = (if i % 2 = 0 then Role.wedding_planner else Role.customer) := by
  obtain ⟨k, h1, _, _, _, _, _⟩ := run_negotiation_records c wp
  have hprod := producerAt_eq_evalAgentAt c wp i
  refine ⟨?_, hprod, ?_⟩
  · rw [h1] at hi ⊢
    simp only [List.length_map, List.length_range] at hi
    simp [List.getElem?_map, List.getElem?_range, hi, roundRecord, hprod]
  · rcases Nat.mod_two_eq_zero_or_one i with h | h <;>
      simp [offAgentAt, h, hwp, hc]

/-- C1 witness: round 1 of the stubborn run records the planner as offering
role while the accept flag is the customer's evaluation of its own opening
offer. -/
theorem run_negotiation_round_attribution_witness :
    (run_negotiation
        (NegotiationSimulation.init stubbornCustomer
          stubbornPlanner)).2.negotiation_history[0]?
      = some ⟨1, (offAgentAt stubbornCustomer stubbornPlanner 0).role,
              offerAt stubbornCustomer stubbornPlanner 0,
              evaluate_offer (producerAt stubbornCustomer stubbornPlanner 0)
                (offerAt stubbornCustomer stubbornPlanner 0)⟩ ∧
    producerAt stubbornCustomer stubbornPlanner 0
      = evalAgentAt stubbornCustomer stubbornPlanner 0 ∧
    (offAgentAt stubbornCustomer stubbornPlanner 0).role
      = (if 0 % 2 = 0 then Role.wedding_planner else Role.customer) :=
  run_negotiation_round_attribution stubbornCustomer stubbornPlanner 0 rfl rfl
    (by
      obtain ⟨k, h1, _, hk1, _, _, _⟩ :=
        run_negotiation_records stubbornCustomer stubbornPlanner
      rw [h1]
      simp only [List.length_map, List.length_range]
      omega)

lemma scenarioB_opening_utility :
    calculate_total_utility ⟨.customer, scenarioBPrefs⟩
      (generate_offer ⟨.customer, scenarioBPrefs⟩ none) = 0.75 := by
  simp only [calculate_total_utility, calculate_budget_utility,
    calculate_services_utility, calculate_timeline_utility, generate_offer,
    utility_weights, budget_sensitivity, scenarioBPrefs]
  norm_num [Real.exp_zero]

/-- C2 counterexample: with Scenario B preferences the customer's total
utility for its own opening offer is 0.75, not 1.0, and it is below the
0.8 acceptance threshold. -/
theorem scenarioB_counterexample :
    ¬ (calculate_total_utility ⟨.customer, scenarioBPrefs⟩
          (generate_offer ⟨.customer, scenarioBPrefs⟩ none) = 1 ∧
       calculate_total_utility ⟨.customer, scenarioBPrefs⟩
          (generate_offer ⟨.customer, scenarioBPrefs⟩ none) ≥ 0.8 ∧
       evaluate_offer ⟨.customer, scenarioBPrefs⟩
          (generate_offer ⟨.customer, scenarioBPrefs⟩ none)) := by
  rintro ⟨h1, _, _⟩
  rw [scenarioB_opening_utility] at h1
  norm_num at h1

/-- C2 (amended): for every Scenario B customer the total utility of its
own opening offer is 0.75, which is below the 0.8 threshold, so round 1
records the opening offer as rejected. -/
theorem scenarioB_round1_rejected (cp pp : Preferences)
    (hb : cp.min_budget = cp.optimal_budget)
    (hs : cp.optimal_services = .Premium)
    (ht : cp.optimal_timeline = cp.preferred_timeline) :
    calculate_total_utility ⟨.customer, cp⟩
      (generate_offer ⟨.customer, cp⟩ none) = 0.75 ∧
    ¬ evaluate_offer ⟨.customer, cp⟩ (generate_offer ⟨.customer, cp⟩ none) ∧
    (run_negotiation (NegotiationSimulation.init ⟨.customer, cp⟩
        ⟨.wedding_planner, pp⟩)).2.negotiation_history[0]?
      = some ⟨1, Role.wedding_planner, generate_offer ⟨.customer, cp⟩ none,
              evaluate_offer ⟨.customer, cp⟩
                (generate_offer ⟨.customer, cp⟩ none)⟩ := by
  have hutil : calculate_total_utility ⟨.customer, cp⟩
      (generate_offer ⟨.customer, cp⟩ none) = 0.75 := by
    simp only [calculate_total_utility, calculate_budget_utility,
      calculate_services_utility, calculate_timeline_utility, generate_offer,
      utility_weights, budget_sensitivity]
    rw [hb, hs, ht]
    norm_num [Real.exp_zero]
  refine ⟨hutil, ?_, ?_⟩
  · intro hev
    have hev' : calculate_total_utility ⟨.customer, cp⟩
        (generate_offer ⟨.customer, cp⟩ none) ≥ 0.8 := hev
    rw [hutil] at hev'
    norm_num at hev'
  · rw [run_negotiation_first_record, roundRecord_zero]

/-- C2 witness: the amended statement at the concrete Scenario B
preferences. -/
theorem scenarioB_round1_rejected_witness :
    calculate_total_utility ⟨.customer, scenarioBPrefs⟩
      (generate_offer ⟨.customer, scenarioBPrefs⟩ none) = 0.75 ∧
    ¬ evaluate_offer ⟨.customer, scenarioBPrefs⟩
      (generate_offer ⟨.customer, scenarioBPrefs⟩ none) ∧
    (run_negotiation (NegotiationSimulation.init ⟨.customer, scenarioBPrefs⟩
        ⟨.wedding_planner, mainPlannerPrefs⟩)).2.negotiation_history[0]?
      = some ⟨1, Role.wedding_planner,
              generate_offer ⟨.customer, scenarioBPrefs⟩ none,
              evaluate_offer ⟨.customer, scenarioBPrefs⟩
                (generate_offer ⟨.customer, scenarioBPrefs⟩ none)⟩ :=
  scenarioB_round1_rejected scenarioBPrefs mainPlannerPrefs rfl rfl rfl

/-- C9: changing only the planner's `optimal_budget`, `optimal_services`
and `optimal_timeline` — the fields that feed solely its unused opening
offer — changes neither the result nor the history of the run. -/
theorem planner_opening_no_influence (c : NegotiationAgent) (p : Preferences)
    (ob : ℝ) (os : ServiceLevel) (ot : ℝ) :
    (run_negotiation
        (NegotiationSimulation.init c ⟨.wedding_planner, p⟩)).1
      = (run_negotiation (NegotiationSimulation.init c
          ⟨.wedding_planner,
            { p with optimal_budget := ob, optimal_services := os,
                     optimal_timeline := ot }⟩)).1 ∧
    (run_negotiation
        (NegotiationSimulation.init c
          ⟨.wedding_planner, p⟩)).2.negotiation_history
      = (run_negotiation (NegotiationSimulation.init c
          ⟨.wedding_planner,
            { p with optimal_budget := ob, optimal_services := os,
                     optimal_timeline := ot }⟩)).2.negotiation_history := by
  rw [run_negotiation_eq, run_negotiation_eq]
  have h := runLoop_congr 10
    (NegotiationSimulation.init c ⟨.wedding_planner, p⟩)
    (NegotiationSimulation.init c
      ⟨.wedding_planner,
        { p with optimal_budget := ob, optimal_services := os,
                 optimal_timeline := ot }⟩)
    (generate_offer c none)
    ⟨.wedding_planner, p⟩ c
    ⟨.wedding_planner,
      { p with optimal_budget := ob, optimal_services := os,
               optimal_timeline := ot }⟩ c
    (by simp [NegotiationSimulation.init]) rfl rfl rfl rfl rfl
    (fun x => rfl) (fun x => rfl) (fun x => rfl) (fun x => rfl)
  exact ⟨h.1, h.2.1⟩

/-- C10: after a run that ended in exhaustion, `current_round` sticks at
`max_rounds`, so a second `run_negotiation` call on the same simulation
state returns `none` at once and leaves the state (and so the history)
untouched. -/
theorem run_negotiation_second_run (c wp : NegotiationAgent)
    (hnone : (run_negotiation (NegotiationSimulation.init c wp)).1 = none) :
    (run_negotiation (NegotiationSimulation.init c wp)).2.current_round
      = (run_negotiation (NegotiationSimulation.init c wp)).2.max_rounds ∧
    run_negotiation ((run_negotiation (NegotiationSimulation.init c wp)).2)
      = (none, (run_negotiation (NegotiationSimulation.init c wp)).2) := by
  obtain ⟨k, _, h2, _, _, hn, h6⟩ := run_negotiation_records c wp
  have hcr : (run_negotiation
      (NegotiationSimulation.init c wp)).2.current_round = 10 := by
    rw [h2, hn hnone]
  have hstop : ¬ ((run_negotiation
        (NegotiationSimulation.init c wp)).2.current_round
      < (run_negotiation
        (NegotiationSimulation.init c wp)).2.max_rounds) := by
    rw [hcr, h6]
    omega
  refine ⟨by rw [hcr, h6], ?_⟩
  rw [run_negotiation_eq, runLoop, dif_neg hstop]

/-- C10 witness: the stubborn run ends exhausted, and re-running it returns
`none` with the state unchanged. -/
theorem run_negotiation_second_run_witness :
    (run_negotiation (NegotiationSimulation.init stubbornCustomer
        stubbornPlanner)).2.current_round
      = (run_negotiation (NegotiationSimulation.init stubbornCustomer
          stubbornPlanner)).2.max_rounds ∧
    run_negotiation ((run_negotiation (NegotiationSimulation.init
        stubbornCustomer stubbornPlanner)).2)
      = (none, (run_negotiation (NegotiationSimulation.init
          stubbornCustomer stubbornPlanner)).2) :=
  run_negotiation_second_run stubbornCustomer stubbornPlanner
    stubborn_run_none
